import Mathlib

/-
Verification of the limitd daemon (server.js plus the pipeline and bucket
engine it wires together) against its natural-language specification.

The visible source is the connection supervisor (server.js); the Bucket
Engine, the pipeline stages and the small callback helpers it uses live in
modules that are not part of the provided sources, so those are modelled
from the specification text, each marked as such in its doc comment.
Everything that server.js itself decides (error classification, start and
stop wiring) is embedded directly from that file.
-/

namespace Limitd

/-! ## Bucket engine (data model and evaluate) -/

/-- Modelled from the spec: a bucket type configuration. `size` is the
maximum quota and `perSecond` the refill rate per second, both in integer
micro-units (the spec requires sub-unit precision to be retained internally
or integer micro-units to be used). The engine module itself is not among
the provided sources. -/
structure BucketTypeConfig where
  size : ℤ
  perSecond : ℤ
deriving DecidableEq

/-- Modelled from the spec: persisted per-key bucket state. -/
structure BucketState where
  remaining : ℤ
  lastUpdateTimestamp : ℤ
deriving DecidableEq

/-- Engine-level operations. PING bypasses the engine entirely, so it does
not appear here. -/
inductive Operation where
  | take
  | put
  | status
deriving DecidableEq

/-- Modelled from the spec: the refill step applied before any operation,
`refilled = min(size, remaining + elapsed * refillRate)`. Quota and rate use
the integer micro-unit representation the spec sanctions for exact
fractional refill, so the arithmetic is exact and never truncates between
calls. -/
def refill (cfg : BucketTypeConfig) (st : BucketState) (now : ℤ) : ℤ :=
  min cfg.size (st.remaining + (now - st.lastUpdateTimestamp) * cfg.perSecond)

/-- Modelled from the spec: the Bucket Engine contract
`evaluate(config, previousState, operation, count, now)`, returning the new
state and whether the outcome is conformant. -/
def evaluate (cfg : BucketTypeConfig) (st : BucketState) (op : Operation)
    (count : ℕ) (now : ℤ) : BucketState × Bool :=
  let refilled := refill cfg st now
  match op with
  | Operation.take =>
      if (count : ℤ) ≤ refilled then
        (⟨refilled - count, now⟩, true)
      else
        (⟨refilled, now⟩, false)
  | Operation.put => (⟨min cfg.size (refilled + count), now⟩, true)
  | Operation.status => (⟨refilled, now⟩, true)

/-- Folding a sequence of engine operations, each a triple of operation,
count and instant. -/
def applyOps (cfg : BucketTypeConfig) (st : BucketState) :
    List (Operation × ℕ × ℤ) → BucketState
  | [] => st
  | (op, c, t) :: rest => applyOps cfg (evaluate cfg st op c t).1 rest

/-- The instants of a sequence of operations are nondecreasing, starting
from a given instant (time never flows backwards between events). -/
def timesChained (t0 : ℤ) : List (Operation × ℕ × ℤ) → Bool
  | [] => true
  | (_, _, t) :: rest => decide (t0 ≤ t) && timesChained t rest

theorem evaluate_lastUpdate (cfg : BucketTypeConfig) (st : BucketState)
    (op : Operation) (c : ℕ) (t : ℤ) :
    (evaluate cfg st op c t).1.lastUpdateTimestamp = t := by
  cases op with
  | take => simp only [evaluate, refill]; split <;> rfl
  | put => rfl
  | status => rfl

theorem refill_nonneg (cfg : BucketTypeConfig) (st : BucketState) (now : ℤ)
    (hsize : 0 ≤ cfg.size) (hrate : 0 ≤ cfg.perSecond)
    (hrem : 0 ≤ st.remaining) (ht : st.lastUpdateTimestamp ≤ now) :
    0 ≤ refill cfg st now := by
  refine le_min hsize ?_
  exact add_nonneg hrem (mul_nonneg (sub_nonneg.mpr ht) hrate)

theorem refill_le_size (cfg : BucketTypeConfig) (st : BucketState) (now : ℤ) :
    refill cfg st now ≤ cfg.size :=
  min_le_left _ _

theorem evaluate_remaining_bounds (cfg : BucketTypeConfig) (st : BucketState)
    (op : Operation) (c : ℕ) (t : ℤ)
    (hsize : 0 ≤ cfg.size) (hrate : 0 ≤ cfg.perSecond)
    (hrem0 : 0 ≤ st.remaining) (ht : st.lastUpdateTimestamp ≤ t) :
    0 ≤ (evaluate cfg st op c t).1.remaining ∧
      (evaluate cfg st op c t).1.remaining ≤ cfg.size := by
  have h0 : 0 ≤ refill cfg st t := refill_nonneg cfg st t hsize hrate hrem0 ht
  have hS : refill cfg st t ≤ cfg.size := refill_le_size cfg st t
  cases op with
  | take =>
      simp only [evaluate]
      split
      next h =>
        exact ⟨by simpa using sub_nonneg.mpr h,
          le_trans (sub_le_self _ (by positivity)) hS⟩
      next h =>
        exact ⟨h0, hS⟩
  | put =>
      simp only [evaluate]
      exact ⟨le_min hsize (add_nonneg h0 (by positivity)), min_le_left _ _⟩
  | status =>
      simp only [evaluate]
      exact ⟨h0, hS⟩

/-- C1: a TAKE of count is conformant iff the post-refill remaining is at
least count; on success the new remaining is the post-refill remaining minus
exactly count, and on failure the remaining equals the post-refill
remaining, so no partial quota is consumed. -/
theorem take_conformant_iff (cfg : BucketTypeConfig) (st : BucketState)
    (count : ℕ) (now : ℤ) :
    ((evaluate cfg st Operation.take count now).2 = true ↔
      (count : ℤ) ≤ refill cfg st now) ∧
    ((count : ℤ) ≤ refill cfg st now →
      (evaluate cfg st Operation.take count now).1.remaining =
        refill cfg st now - count) ∧
    (¬ (count : ℤ) ≤ refill cfg st now →
      (evaluate cfg st Operation.take count now).1.remaining =
        refill cfg st now) := by
  simp only [evaluate]
  split
  next h => exact ⟨by simp [h], fun _ => rfl, fun hc => absurd h hc⟩
  next h => exact ⟨by simp [h], fun hc => absurd hc h, fun _ => rfl⟩

/-- Witness for C1: size 10, rate 1, remaining 5 at time 0 and a TAKE of 3
at time 0 is conformant and leaves 2 units. -/
theorem take_conformant_iff_witness :
    (evaluate ⟨10, 1⟩ ⟨5, 0⟩ Operation.take 3 0).2 = true ∧
    (evaluate ⟨10, 1⟩ ⟨5, 0⟩ Operation.take 3 0).1.remaining =
      refill ⟨10, 1⟩ ⟨5, 0⟩ 0 - 3 := by
  have h := take_conformant_iff ⟨10, 1⟩ ⟨5, 0⟩ 3 0
  exact ⟨h.1.mpr (by decide), h.2.1 (by decide)⟩

/-- C2: for any bucket type with nonnegative size and rate, any starting
state with remaining within bounds, and any chained-in-time sequence of
TAKE, PUT and STATUS operations run through the engine (each with its
refill step), the remaining stays within 0 and size after every
operation. -/
theorem remaining_bounds_invariant (cfg : BucketTypeConfig)
    (st : BucketState) (ops : List (Operation × ℕ × ℤ))
    (hsize : 0 ≤ cfg.size) (hrate : 0 ≤ cfg.perSecond)
    (hrem0 : 0 ≤ st.remaining) (hrem1 : st.remaining ≤ cfg.size)
    (htimes : timesChained st.lastUpdateTimestamp ops = true) :
    0 ≤ (applyOps cfg st ops).remaining ∧
      (applyOps cfg st ops).remaining ≤ cfg.size := by
  induction ops generalizing st with
  | nil => exact ⟨hrem0, hrem1⟩
  | cons hd tl ih =>
      obtain ⟨op, c, t⟩ := hd
      simp only [timesChained, Bool.and_eq_true, decide_eq_true_eq] at htimes
      have hstep := evaluate_remaining_bounds cfg st op c t hsize hrate
        hrem0 htimes.1
      have hts : timesChained
          (evaluate cfg st op c t).1.lastUpdateTimestamp tl = true := by
        rw [evaluate_lastUpdate]; exact htimes.2
      exact ih (evaluate cfg st op c t).1 hstep.1 hstep.2 hts

/-- Witness for C2: size 10, rate 1, a fresh full bucket at time 0, and the
scenario sequence TAKE 5, TAKE 6, STATUS after 5 seconds keeps remaining
within bounds. -/
theorem remaining_bounds_invariant_witness :
    0 ≤ (applyOps ⟨10, 1⟩ ⟨10, 0⟩
        [(Operation.take, 5, 0), (Operation.take, 6, 0),
         (Operation.status, 0, 5)]).remaining ∧
      (applyOps ⟨10, 1⟩ ⟨10, 0⟩
        [(Operation.take, 5, 0), (Operation.take, 6, 0),
         (Operation.status, 0, 5)]).remaining ≤ (10 : ℤ) :=
  remaining_bounds_invariant ⟨10, 1⟩ ⟨10, 0⟩ _
    (by decide) (by decide) (by decide) (by decide) (by decide)

/-! ## Connection supervisor: request-handler error classification

Embedded from server.js. The handler errors are subscribed with a
one-shot subscription; the classification reads
`err.message.indexOf(..) === -1`. -/

/-- Does the pattern occur at the head of the character list. -/
def startsWithChars : List Char → List Char → Bool
  | [], _ => true
  | _ :: _, [] => false
  | p :: ps, c :: cs => p == c && startsWithChars ps cs

/-- Does the pattern occur anywhere in the character list (the JS
`indexOf(pat) !== -1` test). -/
def containsChars (pat : List Char) : List Char → Bool
  | [] => startsWithChars pat []
  | c :: cs => startsWithChars pat (c :: cs) || containsChars pat cs

/-- server.js: a handler error is critical exactly when its message does
not contain the substring undefined bucket type
(`err.message.indexOf(..) === -1`). -/
def isCriticalError (message : String) : Bool :=
  ! containsChars ("undefined bucket type").toList message.toList

/-- Log severities used by server.js (log.debug, log.info, log.error). -/
inductive Severity where
  | debug
  | info
  | err
deriving DecidableEq

/-- The per-connection supervisor state server.js maintains around the
request handler: whether the socket is open, whether the one-shot handler
error subscription is still armed, and the log lines written. -/
structure ConnSupervisor where
  socketOpen : Bool
  errListenerArmed : Bool
  log : List (Severity × String)
deriving DecidableEq

/-- server.js, request_handler.once error subscription: if the one-shot
listener is still armed, classify the error by message substring, log at
error or info severity accordingly, end the socket only when critical, and
disarm; otherwise the event is not acted on at all. -/
def onHandlerError (st : ConnSupervisor) (message : String) : ConnSupervisor :=
  if st.errListenerArmed then
    let critical := isCriticalError message
    { socketOpen := if critical then false else st.socketOpen
      errListenerArmed := false
      log := (if critical then Severity.err else Severity.info, message) :: st.log }
  else st

/-- A whole sequence of handler error events, in order. -/
def onHandlerErrors (st : ConnSupervisor) (msgs : List String) : ConnSupervisor :=
  msgs.foldl onHandlerError st

/-- The supervisor state of a freshly accepted connection: socket open,
handler error listener armed, nothing logged. -/
def initSupervisor : ConnSupervisor := ⟨true, true, []⟩

theorem onHandlerErrors_disarmed (st : ConnSupervisor) (msgs : List String)
    (h : st.errListenerArmed = false) : onHandlerErrors st msgs = st := by
  induction msgs with
  | nil => rfl
  | cons m ms ih =>
      simp only [onHandlerErrors, List.foldl_cons, onHandlerError, h,
        Bool.false_eq_true, if_false] at *
      exact ih

/-- C9: the handler error subscription is one-shot — on an armed open
connection the first error is classified solely by whether its message
contains the substring undefined bucket type (socket ended iff the
substring is absent, severity chosen by the same test, listener disarmed),
and any later handler error is not acted on at all: after a first
non-fatal error a later critical error neither logs nor closes the
socket. -/
theorem handler_error_once (st : ConnSupervisor) (m : String)
    (ms : List String) (harmed : st.errListenerArmed = true)
    (hopen : st.socketOpen = true) :
    ((onHandlerError st m).socketOpen = false ↔ isCriticalError m = true) ∧
    (onHandlerError st m).log.head? =
      some (if isCriticalError m then Severity.err else Severity.info, m) ∧
    (onHandlerError st m).errListenerArmed = false ∧
    onHandlerErrors (onHandlerError st m) ms = onHandlerError st m := by
  have hdis : (onHandlerError st m).errListenerArmed = false := by
    simp [onHandlerError, harmed]
  refine ⟨?_, ?_, hdis, onHandlerErrors_disarmed _ ms hdis⟩
  · simp only [onHandlerError, harmed, if_true]
    cases hc : isCriticalError m <;> simp [hc, hopen]
  · simp [onHandlerError, harmed]

/-- Witness for C9: from a fresh connection, a first unknown-bucket-type
error is logged at info severity and leaves the socket open, and a
subsequent critical error is a no-op. -/
theorem handler_error_once_witness :
    ((onHandlerError initSupervisor "undefined bucket type ip").socketOpen
        = false ↔
      isCriticalError "undefined bucket type ip" = true) ∧
    (onHandlerError initSupervisor "undefined bucket type ip").log.head? =
      some (if isCriticalError "undefined bucket type ip" then Severity.err
        else Severity.info, "undefined bucket type ip") ∧
    (onHandlerError initSupervisor
        "undefined bucket type ip").errListenerArmed = false ∧
    onHandlerErrors
        (onHandlerError initSupervisor "undefined bucket type ip")
        ["leveldb read failure"] =
      onHandlerError initSupervisor "undefined bucket type ip" :=
  handler_error_once initSupervisor "undefined bucket type ip"
    ["leveldb read failure"] rfl rfl

/-- C4 counterexample: on one connection, a first non-fatal
unknown-bucket-type error followed by a critical store error leaves the
socket open, although the claim says every error other than
UnknownBucketType ends the socket. -/
theorem handler_error_second_ignored :
    isCriticalError "leveldb read failure" = true ∧
    (onHandlerErrors initSupervisor
        ["undefined bucket type ip", "leveldb read failure"]).socketOpen
      = true := by
  exact ⟨rfl, rfl⟩

/-- C4 amended: the classification applies to the first handler error on
the connection: an unknown-bucket-type first error is non-fatal — logged
at info severity, the socket stays open through any later handler errors —
while any other first error is fatal: logged at error severity and the
socket is ended. -/
theorem handler_first_error_classified (st : ConnSupervisor) (m : String)
    (ms : List String) (harmed : st.errListenerArmed = true)
    (hopen : st.socketOpen = true) :
    (isCriticalError m = false →
      (onHandlerErrors st (m :: ms)).socketOpen = true ∧
      (onHandlerError st m).log.head? = some (Severity.info, m)) ∧
    (isCriticalError m = true →
      (onHandlerError st m).socketOpen = false ∧
      (onHandlerError st m).log.head? = some (Severity.err, m)) := by
  have hdis : (onHandlerError st m).errListenerArmed = false := by
    simp [onHandlerError, harmed]
  constructor
  · intro hc
    have hrest : onHandlerErrors (onHandlerError st m) ms =
        onHandlerError st m := onHandlerErrors_disarmed _ ms hdis
    have : onHandlerErrors st (m :: ms) =
        onHandlerErrors (onHandlerError st m) ms := rfl
    rw [this, hrest]
    constructor
    · simp [onHandlerError, harmed, hc, hopen]
    · simp [onHandlerError, harmed, hc]
  · intro hc
    constructor
    · simp [onHandlerError, harmed, hc]
    · simp [onHandlerError, harmed, hc]

/-- Witness for the amended C4: a critical first error on a fresh
connection ends the socket and is logged at error severity. -/
theorem handler_first_error_classified_witness :
    (onHandlerError initSupervisor "leveldb read failure").socketOpen
        = false ∧
    (onHandlerError initSupervisor "leveldb read failure").log.head? =
      some (Severity.err, "leveldb read failure") :=
  (handler_first_error_classified initSupervisor "leveldb read failure"
    [] rfl rfl).2 rfl

/-! ## Request pipeline: decoder, handler, per-connection run

server.js wires, per accepted socket, the chain
decode, handler, encode back to the same socket; the stage modules
themselves are not among the provided sources and are modelled from the
spec. -/

/-- Wire-level operations of a Request. -/
inductive ReqOperation where
  | take
  | put
  | status
  | ping
deriving DecidableEq

/-- Modelled from the spec: a decoded Request. -/
structure Request where
  operation : ReqOperation
  bucketType : String
  key : String
  count : ℕ
deriving DecidableEq

/-- Modelled from the spec: a Response emitted for a processed Request. -/
structure Response where
  conformant : Bool
  remaining : ℤ
  limit : ℤ
deriving DecidableEq

/-- The configured bucket types, by name. -/
abbrev Config := List (String × BucketTypeConfig)

/-- The bucket store: a durable mapping from bucket type and key to bucket
state; the newest write for a key shadows older ones. -/
abbrev Store := List ((String × String) × BucketState)

/-- Modelled from the spec: RequestHandler dispatch for one decoded
request, in arrival order. PING replies immediately without touching the
store; an unknown bucket type is answered as a failure while the
connection is kept open; otherwise the state is fetched (or synthesized at
full capacity on first access), the engine runs, the new state is
persisted and the response is emitted. -/
def handleRequest (cfg : Config) (db : Store) (now : ℤ) (r : Request) :
    Store × Response :=
  match r.operation with
  | ReqOperation.ping => (db, ⟨true, 0, 0⟩)
  | op =>
    match cfg.lookup r.bucketType with
    | none => (db, ⟨false, 0, 0⟩)
    | some tc =>
      let st := (db.lookup (r.bucketType, r.key)).getD ⟨tc.size, now⟩
      let engineOp : Operation :=
        match op with
        | ReqOperation.take => Operation.take
        | ReqOperation.put => Operation.put
        | _ => Operation.status
      let res := evaluate tc st engineOp r.count now
      (((r.bucketType, r.key), res.1) :: db,
        ⟨res.2, res.1.remaining, tc.size⟩)

/-- The handler stage over a whole stream of decoded requests, threading
the shared store and emitting responses in order. -/
def handleAll (cfg : Config) (db : Store) (now : ℤ) :
    List Request → Store × List Response
  | [] => (db, [])
  | r :: rs =>
    let first := handleRequest cfg db now r
    let rest := handleAll cfg first.1 now rs
    (rest.1, first.2 :: rest.2)

theorem handleAll_length (cfg : Config) (db : Store) (now : ℤ)
    (reqs : List Request) :
    (handleAll cfg db now reqs).2.length = reqs.length := by
  induction reqs generalizing db with
  | nil => rfl
  | cons r rs ih => simp [handleAll, ih]

/-- C3: the pipeline emits exactly one response per request on the same
connection, in request order and with none dropped: the response stream
has the same length as the request stream, and its i-th element is
exactly the response the handler computes for the i-th request against the
store as left by the requests before it. -/
theorem responses_in_order (cfg : Config) (db : Store) (now : ℤ)
    (reqs : List Request) (i : ℕ) (r : Request)
    (hi : reqs.get? i = some r) :
    (handleAll cfg db now reqs).2.length = reqs.length ∧
    (handleAll cfg db now reqs).2.get? i =
      some (handleRequest cfg
        (handleAll cfg db now (reqs.take i)).1 now r).2 := by
  refine ⟨handleAll_length cfg db now reqs, ?_⟩
  induction reqs generalizing db i with
  | nil => simp at hi
  | cons hd tl ih =>
      cases i with
      | zero =>
          simp only [List.get?] at hi
          cases hi
          rfl
      | succ j =>
          simp only [List.get?] at hi
          have := ih (handleRequest cfg db now hd).1 j hi
          simpa [handleAll] using this

/-- Witness for C3: two requests on one connection — a TAKE of 3 then a
TAKE of 9 on the same fresh size-10 bucket — produce exactly the two
responses in order; position 1 carries the second response, computed
against the store after the first request. -/
theorem responses_in_order_witness :
    (handleAll [("ip", ⟨10, 1⟩)] [] 0
        [⟨ReqOperation.take, "ip", "k", 3⟩,
         ⟨ReqOperation.take, "ip", "k", 9⟩]).2.length = 2 ∧
    (handleAll [("ip", ⟨10, 1⟩)] [] 0
        [⟨ReqOperation.take, "ip", "k", 3⟩,
         ⟨ReqOperation.take, "ip", "k", 9⟩]).2.get? 1 =
      some (handleRequest [("ip", ⟨10, 1⟩)]
        (handleAll [("ip", ⟨10, 1⟩)] [] 0
          [⟨ReqOperation.take, "ip", "k", 3⟩]).1 0
        ⟨ReqOperation.take, "ip", "k", 9⟩).2 := by
  have h := responses_in_order [("ip", ⟨10, 1⟩)] [] 0
    [⟨ReqOperation.take, "ip", "k", 3⟩, ⟨ReqOperation.take, "ip", "k", 9⟩]
    1 ⟨ReqOperation.take, "ip", "k", 9⟩ rfl
  exact ⟨h.1, by rw [h.2]; rfl⟩

/-! ## Decoder errors and per-connection isolation -/

/-- A frame as the decoder sees it: either it parses into a Request or it
is malformed (truncated or unparseable). -/
inductive Frame where
  | wellFormed (r : Request)
  | malformed
deriving DecidableEq

/-- Modelled from the spec: the RequestDecoder consumes one delimited
frame at a time and signals a terminal decode error on a malformed frame;
server.js subscribes that error and ends the socket immediately, so no
response is emitted for the malformed frame and no later frame of the
connection is decoded (no resynchronization). Returns the final store, the
responses emitted, and whether the socket is still open. -/
def runConnection (cfg : Config) (db : Store) (now : ℤ) :
    List Frame → Store × List Response × Bool
  | [] => (db, [], true)
  | Frame.malformed :: _ => (db, [], false)
  | Frame.wellFormed r :: rest =>
    let first := handleRequest cfg db now r
    let restRun := runConnection cfg first.1 now rest
    (restRun.1, first.2 :: restRun.2.1, restRun.2.2)

/-- A frame list is clean when it has no malformed frame. -/
def framesOk : List Frame → Bool
  | [] => true
  | Frame.malformed :: _ => false
  | Frame.wellFormed _ :: rest => framesOk rest

/-- The daemon serving several connections against the one shared store;
each connection runs its own pipeline instance. -/
def runServer (cfg : Config) (db : Store) (now : ℤ) :
    List (List Frame) → Store × List (List Response × Bool)
  | [] => (db, [])
  | c :: cs =>
    let connRun := runConnection cfg db now c
    let rest := runServer cfg connRun.1 now cs
    (rest.1, (connRun.2.1, connRun.2.2) :: rest.2)

theorem runConnection_socket_eq_framesOk (cfg : Config) (db : Store)
    (now : ℤ) (frames : List Frame) :
    (runConnection cfg db now frames).2.2 = framesOk frames := by
  induction frames generalizing db with
  | nil => rfl
  | cons f rest ih =>
      cases f with
      | malformed => rfl
      | wellFormed r => simp [runConnection, framesOk, ih]

theorem runServer_length (cfg : Config) (db : Store) (now : ℤ)
    (conns : List (List Frame)) :
    (runServer cfg db now conns).2.length = conns.length := by
  induction conns generalizing db with
  | nil => rfl
  | cons c cs ih => simp [runServer, ih]

/-- C8: a malformed frame is terminal for its own connection only: with
frames equal to a clean block, then the malformed frame, then anything,
the socket ends, the responses are exactly those of the clean block before
the malformed frame (none for the malformed frame, none after it — no
resynchronization); and across the whole daemon every connection keeps its
socket open exactly when its own frames are clean, independent of the
other connections and with the listener list intact (one result slot per
accepted connection). -/
theorem decode_error_terminal (cfg : Config) (db : Store) (now : ℤ)
    (good : List Request) (rest : List Frame)
    (conns : List (List Frame)) (i : ℕ) (frames : List Frame)
    (hi : conns.get? i = some frames) :
    (runConnection cfg db now
        (good.map Frame.wellFormed ++ Frame.malformed :: rest)).2.2
      = false ∧
    (runConnection cfg db now
        (good.map Frame.wellFormed ++ Frame.malformed :: rest)).2.1
      = (handleAll cfg db now good).2 ∧
    ((runServer cfg db now conns).2.get? i).map (fun p => p.2)
      = some (framesOk frames) ∧
    (runServer cfg db now conns).2.length = conns.length := by
  refine ⟨?_, ?_, ?_, runServer_length cfg db now conns⟩
  · rw [runConnection_socket_eq_framesOk]
    induction good with
    | nil => rfl
    | cons r rs ih => simpa [framesOk] using ih
  · induction good generalizing db with
    | nil => rfl
    | cons r rs ih => simp [runConnection, handleAll, ih]
  · induction conns generalizing db i with
    | nil => simp at hi
    | cons c cs ih =>
        cases i with
        | zero =>
            simp only [List.get?] at hi
            cases hi
            simp [runServer, runConnection_socket_eq_framesOk]
        | succ j =>
            simp only [List.get?] at hi
            have := ih (runConnection cfg db now c).1 j hi
            simpa [runServer] using this

/-- Witness for C8: two connections — the first sends one valid TAKE, a
malformed frame and then another frame; the second sends one valid TAKE.
The first socket ends with exactly one response; the second connection
keeps its socket open. -/
theorem decode_error_terminal_witness :
    (runConnection [("ip", ⟨10, 1⟩)] [] 0
        ([⟨ReqOperation.take, "ip", "k", 3⟩].map Frame.wellFormed ++
          Frame.malformed ::
            [Frame.wellFormed ⟨ReqOperation.take, "ip", "k", 1⟩])).2.2
      = false ∧
    (runConnection [("ip", ⟨10, 1⟩)] [] 0
        ([⟨ReqOperation.take, "ip", "k", 3⟩].map Frame.wellFormed ++
          Frame.malformed ::
            [Frame.wellFormed ⟨ReqOperation.take, "ip", "k", 1⟩])).2.1
      = (handleAll [("ip", ⟨10, 1⟩)] [] 0
          [⟨ReqOperation.take, "ip", "k", 3⟩]).2 ∧
    ((runServer [("ip", ⟨10, 1⟩)] [] 0
        [[Frame.wellFormed ⟨ReqOperation.take, "ip", "k", 3⟩,
          Frame.malformed],
         [Frame.wellFormed ⟨ReqOperation.take, "ip", "k", 2⟩]]).2.get?
          1).map (fun p => p.2)
      = some (framesOk
          [Frame.wellFormed ⟨ReqOperation.take, "ip", "k", 2⟩]) := by
  have h := decode_error_terminal [("ip", ⟨10, 1⟩)] [] 0
    [⟨ReqOperation.take, "ip", "k", 3⟩]
    [Frame.wellFormed ⟨ReqOperation.take, "ip", "k", 1⟩]
    [[Frame.wellFormed ⟨ReqOperation.take, "ip", "k", 3⟩, Frame.malformed],
     [Frame.wellFormed ⟨ReqOperation.take, "ip", "k", 2⟩]]
    1 [Frame.wellFormed ⟨ReqOperation.take, "ip", "k", 2⟩] rfl
  exact ⟨h.1, h.2.1, h.2.2.1⟩

/-! ## Daemon lifecycle: stop -/

/-- Observable events of the stop sequence, in the order they happen. -/
inductive StopEvent where
  | acceptingStopped
  | inFlightFlushed
  | logged (s : Severity) (m : String)
  | storeClosed
  | closeEmitted
  | callbackInvoked (e : Option String)
deriving DecidableEq

/-- Modelled from the spec: the server-destroy destroy call (external
module): the daemon stops accepting new connections and in-flight
responses are allowed to flush, then the completion continuation runs with
the close outcome. -/
def serverDestroy (serverErr : Option String)
    (k : Option String → List StopEvent) : List StopEvent :=
  StopEvent.acceptingStopped :: StopEvent.inFlightFlushed :: k serverErr

/-- Modelled from the spec: the store close lifecycle (external module):
the store closes, then the completion continuation runs with the close
outcome. -/
def dbClose (dbErr : Option String)
    (k : Option String → List StopEvent) : List StopEvent :=
  StopEvent.storeClosed :: k dbErr

/-- server.js: the JS expression serverCloseError || dbCloseError. -/
def jsOr (a b : Option String) : Option String :=
  match a with
  | some e => some e
  | none => b

/-- server.js stop: destroy the tcp server; in its completion callback log
the outcome (error severity on failure, debug on success) and close the
db; in that completion callback log the outcome likewise, emit close, and
invoke the stop callback with serverCloseError || dbCloseError. -/
def stop (serverErr dbErr : Option String) : List StopEvent :=
  serverDestroy serverErr (fun serverCloseError =>
    (match serverCloseError with
     | some e => StopEvent.logged Severity.err e
     | none => StopEvent.logged Severity.debug "server closed") ::
    dbClose dbErr (fun dbCloseError =>
      (match dbCloseError with
       | some e => StopEvent.logged Severity.err e
       | none => StopEvent.logged Severity.debug "database closed") ::
      [StopEvent.closeEmitted,
       StopEvent.callbackInvoked (jsOr serverCloseError dbCloseError)]))

/-- C5: for every stop invocation, the sequence is — stop accepting new
connections, let in-flight responses flush, close the store, and only then
signal completion: the close event is emitted and the completion callback
invoked last, with only log lines in between. -/
theorem stop_ordered (serverErr dbErr : Option String) :
    ∃ l1 l2, stop serverErr dbErr =
      [StopEvent.acceptingStopped, StopEvent.inFlightFlushed, l1,
       StopEvent.storeClosed, l2, StopEvent.closeEmitted,
       StopEvent.callbackInvoked (jsOr serverErr dbErr)] ∧
      (∃ s m, l1 = StopEvent.logged s m) ∧
      (∃ s m, l2 = StopEvent.logged s m) := by
  cases serverErr <;> cases dbErr <;>
    exact ⟨_, _, rfl, ⟨_, _, rfl⟩, ⟨_, _, rfl⟩⟩

/-- C10: close failures during stop are only logged — each failure is
written at error severity, the close event is still emitted, and the
completion callback still runs, receiving the server close error when
there is one and otherwise the store close error (nothing when both
succeed). -/
theorem stop_failures_only_logged (serverErr dbErr : Option String) :
    StopEvent.closeEmitted ∈ stop serverErr dbErr ∧
    StopEvent.callbackInvoked (jsOr serverErr dbErr) ∈ stop serverErr dbErr ∧
    (∀ e, serverErr = some e →
      StopEvent.logged Severity.err e ∈ stop serverErr dbErr ∧
        jsOr serverErr dbErr = some e) ∧
    (∀ e, dbErr = some e →
      StopEvent.logged Severity.err e ∈ stop serverErr dbErr) ∧
    (serverErr = none → jsOr serverErr dbErr = dbErr) := by
  refine ⟨?_, ?_, ?_, ?_, ?_⟩
  · cases serverErr <;> cases dbErr <;> simp [stop, serverDestroy, dbClose]
  · cases serverErr <;> cases dbErr <;> simp [stop, serverDestroy, dbClose]
  · rintro e rfl
    cases dbErr <;> exact ⟨by simp [stop, serverDestroy, dbClose], rfl⟩
  · rintro e rfl
    cases serverErr <;> simp [stop, serverDestroy, dbClose]
  · rintro rfl
    rfl

/-- Witness for C10: when both the tcp server close and the store close
fail, both failures are logged at error severity, close is still emitted
and the callback receives the server close error. -/
theorem stop_failures_only_logged_witness :
    StopEvent.closeEmitted ∈ stop (some "tcp boom") (some "db boom") ∧
    StopEvent.logged Severity.err "tcp boom"
      ∈ stop (some "tcp boom") (some "db boom") ∧
    StopEvent.logged Severity.err "db boom"
      ∈ stop (some "tcp boom") (some "db boom") ∧
    jsOr (some "tcp boom") (some "db boom") = some "tcp boom" := by
  have h := stop_failures_only_logged (some "tcp boom") (some "db boom")
  exact ⟨h.1, (h.2.2.1 "tcp boom" rfl).1, h.2.2.2.1 "db boom" rfl,
    (h.2.2.1 "tcp boom" rfl).2⟩

/-! ## Stop completion callback: timeout and once -/

/-- Modelled from the spec: the single-fire completion wrapper stop puts
around its callback (the cb module with a 5000 ms timeout and once, not
among the provided sources). The argument lists the ascending instants at
which the stop sequence tries to complete (empty when the close never
finishes); the wrapper fires exactly once, at the first attempt when it
comes inside the timeout and at the timeout otherwise. -/
def cbTimeoutOnce (timeoutMs : ℤ) (attempts : List ℤ) : List ℤ :=
  match attempts with
  | [] => [timeoutMs]
  | t :: _ => if t ≤ timeoutMs then [t] else [timeoutMs]

/-- C6: every stop invocation fires its completion callback exactly once
and within the 5000 ms bound, also when the underlying close never
completes; since each stop call wraps a fresh callback this way, repeated
stop calls never double-invoke any completion callback. -/
theorem stop_callback_exactly_once (attempts : List ℤ) :
    (cbTimeoutOnce 5000 attempts).length = 1 ∧
    ∀ t, t ∈ cbTimeoutOnce 5000 attempts → t ≤ 5000 := by
  cases attempts with
  | nil =>
      refine ⟨rfl, ?_⟩
      intro t ht
      simp only [cbTimeoutOnce, List.mem_singleton] at ht
      simp [ht]
  | cons a rest =>
      constructor
      · simp only [cbTimeoutOnce]
        split <;> rfl
      · intro t ht
        simp only [cbTimeoutOnce] at ht
        split at ht
        next h => simp only [List.mem_singleton] at ht; exact ht ▸ h
        next h => simp only [List.mem_singleton] at ht; simp [ht]

/-- Witness for C6: a stop whose close never completes still fires exactly
once, at the 5000 ms timeout bound. -/
theorem stop_callback_exactly_once_witness :
    (cbTimeoutOnce 5000 []).length = 1 ∧ (5000 : ℤ) ≤ 5000 :=
  ⟨(stop_callback_exactly_once []).1,
    (stop_callback_exactly_once []).2 5000 (by simp [cbTimeoutOnce])⟩

/-! ## Daemon lifecycle: start -/

/-- The daemon state start manipulates: whether the store reports open,
whether the listener is accepting, and whether a once-ready retry of start
is armed. -/
structure Daemon where
  dbOpen : Bool
  listening : Bool
  readyRearmed : Bool
deriving DecidableEq

/-- Observable events of the start sequence. -/
inductive StartEvent where
  | onceReadyArmed
  | listenCalled
  | errorEmitted (e : String)
  | startedEmitted (address : String)
deriving DecidableEq

/-- server.js start: when the db is not open, arm a once-ready listener
that will run start again and return without listening; otherwise call
listen and, on success, emit started with the bound address (on failure,
log and emit error). -/
def start (d : Daemon) (listenErr : Option String) (address : String) :
    Daemon × List StartEvent :=
  if d.dbOpen = false then
    ({ d with readyRearmed := true }, [StartEvent.onceReadyArmed])
  else
    match listenErr with
    | some e => (d, [StartEvent.listenCalled, StartEvent.errorEmitted e])
    | none => ({ d with listening := true },
        [StartEvent.listenCalled, StartEvent.startedEmitted address])

/-- server.js: the once-ready listener runs start again when the store
signals ready. -/
def onReady (d : Daemon) (listenErr : Option String) (address : String) :
    Daemon × List StartEvent :=
  if d.readyRearmed then
    start { d with dbOpen := true, readyRearmed := false } listenErr address
  else ({ d with dbOpen := true }, [])

/-- C7: calling start while the store is not yet ready does not begin
listening — no listen call happens and the listener state is unchanged —
and instead re-arms start to run once the store signals ready; when ready
then arrives and the listen succeeds, the daemon is listening and emits
started with the bound address. -/
theorem start_rearms_until_ready (d : Daemon) (address : String)
    (hdb : d.dbOpen = false) :
    (start d none address).2 = [StartEvent.onceReadyArmed] ∧
    StartEvent.listenCalled ∉ (start d none address).2 ∧
    (start d none address).1.listening = d.listening ∧
    (start d none address).1.readyRearmed = true ∧
    (onReady (start d none address).1 none address).1.listening = true ∧
    StartEvent.startedEmitted address
      ∈ (onReady (start d none address).1 none address).2 := by
  have h1 : start d none address =
      ({ d with readyRearmed := true }, [StartEvent.onceReadyArmed]) := by
    simp [start, hdb]
  refine ⟨by rw [h1], by rw [h1]; simp, by rw [h1], by rw [h1], ?_, ?_⟩
  · rw [h1]; simp [onReady, start]
  · rw [h1]; simp [onReady, start]

/-- Witness for C7: a daemon whose store is not yet open arms the retry,
does not listen, and after the ready signal listens and emits started. -/
theorem start_rearms_until_ready_witness :
    (start ⟨false, false, false⟩ none "0.0.0.0:9231").2
      = [StartEvent.onceReadyArmed] ∧
    (start ⟨false, false, false⟩ none "0.0.0.0:9231").1.listening = false ∧
    (onReady (start ⟨false, false, false⟩ none "0.0.0.0:9231").1 none
        "0.0.0.0:9231").1.listening = true ∧
    StartEvent.startedEmitted "0.0.0.0:9231"
      ∈ (onReady (start ⟨false, false, false⟩ none "0.0.0.0:9231").1 none
          "0.0.0.0:9231").2 := by
  have h := start_rearms_until_ready ⟨false, false, false⟩ "0.0.0.0:9231" rfl
  exact ⟨h.1, h.2.2.1, h.2.2.2.2.1, h.2.2.2.2.2⟩

end Limitd
